import Mathlib

/-!
# Verification of the LLM-duet conversation orchestrator and model clients

Shallow embedding of the repository:
* `conversation.py` : `have_conversation`, the turn-based orchestration loop
  between two named models, threading per-speaker context and recording an
  ordered transcript;
* `ollama_client.py` : `OllamaClient.generate`, the local-generation HTTP
  client (request body built from model / prompt / stream / options, JSON
  response field extraction with a lenient empty-string default);
* `openai_client.py` : `OpenAIClient.generate`, the hosted chat-completion
  client (single user message; streaming rejected up front; extra keyword
  arguments discarded).

Stateful aspects are made explicit: the orchestrator threads a `ConvState`
(transcript, the two per-speaker context lists, the current speaker, and the
list of client calls made so far), and each client is parametrised by an
abstract transport function so that network effects become explicit data
(the list of requests issued) and failures become `Except` values.
-/

namespace LLMDuet

/-- A deterministic model client, embedding any Python object with a
`generate(model, prompt, stream=False, **kwargs)` method as used by
`have_conversation` (which always passes `stream=False` and no kwargs).
The first argument is the index of the call (the number of client calls
already made), which lets a stateful stub — such as one returning fixed
strings in call order, or raising on the second call — be modelled as a
pure function.  The result is either the completion text or an error of
type `ε` (a raised Python exception). -/
def Client (ε : Type) := Nat → String → String → Except ε String

/-- The lines contributed to a context list by an optional system prompt.
Embeds Python `if system_a: history_a.append(system_a)` — both `None`
and the empty string are falsy, so neither contributes a line. -/
def sysLines : Option String → List String
  | none => []
  | some s => if s = "" then [] else [s]

/-- The mutable local state of one `have_conversation` call:
`history` is the transcript accumulated so far, `historyA` / `historyB` the
two per-speaker context lists, `current` the Python `current_model`
variable, and `calls` the instrumentation record of client invocations
(the `(model, prompt)` argument pairs, in order). -/
structure ConvState where
  history : List (String × String)
  historyA : List String
  historyB : List String
  current : String
  calls : List (String × String)
deriving Repr, DecidableEq

/-- The prompt string sent to the client on the current turn:
`"\n".join(history_a if current_model == model_a else history_b)`. -/
def currentPrompt (model_a : String) (st : ConvState) : String :=
  String.intercalate "\n" (if st.current = model_a then st.historyA else st.historyB)

/-- One successful loop iteration of `have_conversation`: append
`(current_model, response)` to the transcript, append the line
`f"{current_model}: {response}"` to the *other* speaker's context list,
swap `current_model`, and record the client call that was made. -/
def stepState (model_a model_b response : String) (st : ConvState) : ConvState :=
  { history := st.history ++ [(st.current, response)]
    historyA := if st.current = model_a then st.historyA
                else st.historyA ++ [st.current ++ ": " ++ response]
    historyB := if st.current = model_a then st.historyB ++ [st.current ++ ": " ++ response]
                else st.historyB
    current := if st.current = model_a then model_b else model_a
    calls := st.calls ++ [(st.current, currentPrompt model_a st)] }

/-- The `for _ in range(turns)` loop of `have_conversation`, with the
iteration count as fuel.  A client error aborts the loop immediately
(the Python exception propagates); the failing call is still recorded in
`calls`, and the second component reports the error. -/
def conversationLoop (client : Client ε) (model_a model_b : String) :
    Nat → ConvState → ConvState × Option ε
  | 0, st => (st, none)
  | n + 1, st =>
    match client st.calls.length st.current (currentPrompt model_a st) with
    | .error e =>
        ({ st with calls := st.calls ++ [(st.current, currentPrompt model_a st)] }, some e)
    | .ok response =>
        conversationLoop client model_a model_b n (stepState model_a model_b response st)

/-- The state at the start of the loop: empty transcript, each context list
holding the optional system line followed by `f"user: {prompt}"`, the
current speaker set to `model_a`, and no client calls made. -/
def initState (model_a prompt : String) (system_a system_b : Option String) : ConvState :=
  { history := []
    historyA := sysLines system_a ++ ["user: " ++ prompt]
    historyB := sysLines system_b ++ ["user: " ++ prompt]
    current := model_a
    calls := [] }

/-- Run the whole orchestration loop and expose the final state together
with the error, if any.  `turns` is an `Int` as in Python; `range(turns)`
performs `turns.toNat` iterations (zero when `turns` is negative). -/
def conversationRun (client : Client ε) (model_a model_b prompt : String)
    (turns : Int) (system_a system_b : Option String) : ConvState × Option ε :=
  conversationLoop client model_a model_b turns.toNat
    (initState model_a prompt system_a system_b)

/-- Embedding of `have_conversation` from `conversation.py`: returns the transcript on
full completion, or propagates the first client error. -/
def have_conversation (client : Client ε) (model_a model_b prompt : String)
    (turns : Int) (system_a system_b : Option String) :
    Except ε (List (String × String)) :=
  match conversationRun client model_a model_b prompt turns system_a system_b with
  | (st, none) => .ok st.history
  | (_, some e) => .error e

/-! ## The two HTTP client variants -/

/-- A single chat message, as in the `{"role": ..., "content": ...}`
dictionaries sent to the hosted chat-completion API. -/
structure ChatMessage where
  role : String
  content : String
deriving Repr, DecidableEq

/-- The request issued by `OpenAIClient.generate` via
`chat.completions.create(model=..., messages=...)`. -/
structure ChatRequest where
  model : String
  messages : List ChatMessage
deriving Repr, DecidableEq

/-- Errors surfaced by `OpenAIClient.generate`: the `NotImplementedError`
raised for streaming requests, or a transport-level failure from the
underlying API call. -/
inductive GenError (ε : Type) where
  | notImplemented (msg : String)
  | transport (e : ε)
deriving Repr, DecidableEq

/-- Embedding of `OpenAIClient.generate` from `openai_client.py`.  The network is
abstracted as `transport`, which maps the constructed request to either an
error or the first choice's message content (`none` embeds a null content
field).  The result pairs the list of requests actually issued with the
outcome.  `_options` embeds the ignored `**_` keyword arguments: the
Python method accepts and silently discards them.  When `stream` is true
the method raises before constructing or sending any request. -/
def OpenAIClient.generate (transport : ChatRequest → Except ε (Option String))
    (model prompt : String) (stream : Bool) (_options : List (String × String)) :
    List ChatRequest × Except (GenError ε) String :=
  if stream then
    ([], .error (.notImplemented "Streaming responses are not supported"))
  else
    let req : ChatRequest := { model := model, messages := [{ role := "user", content := prompt }] }
    match transport req with
    | .error e => ([req], .error (.transport e))
    | .ok content => ([req], .ok (content.getD ""))

/-- The JSON request body posted by `OllamaClient.generate` to
`/api/generate`: always `model`, `prompt` and `stream`; the `options` key
is present only when the options map is truthy (non-`None` and
non-empty). -/
structure OllamaPayload where
  model : String
  prompt : String
  stream : Bool
  options : Option (List (String × String))
deriving Repr, DecidableEq

/-- The payload construction inside `OllamaClient.generate`:
`payload = {"model": ..., "prompt": ..., "stream": ...}` plus
`if options: payload["options"] = options`. -/
def ollamaPayload (model prompt : String) (stream : Bool)
    (options : Option (List (String × String))) : OllamaPayload :=
  { model := model
    prompt := prompt
    stream := stream
    options := match options with
      | some o => if o = [] then none else some o
      | none => none }

/-- Embedding of `OllamaClient.generate` from `ollama_client.py`.  `post` abstracts
`requests.post` + `raise_for_status` + `.json()`: it maps the payload to
either a transport error or the parsed JSON object (modelled as an
association list of string fields).  On success the method returns
`data.get("response", "")`.  The result pairs the list of requests issued
with the outcome. -/
def OllamaClient.generate (post : OllamaPayload → Except ε (List (String × String)))
    (model prompt : String) (stream : Bool)
    (options : Option (List (String × String))) :
    List OllamaPayload × Except ε String :=
  match post (ollamaPayload model prompt stream options) with
  | .error e => ([ollamaPayload model prompt stream options], .error e)
  | .ok data => ([ollamaPayload model prompt stream options],
      .ok ((data.lookup "response").getD ""))

/-! ## Concrete stub clients used as test vehicles -/

/-- A stub client returning the fixed strings R1, R2, R3, R4 in call
order (and `""` on any later call); it never fails. -/
def stubFixed : Client Unit := fun k _ _ =>
  .ok (["R1", "R2", "R3", "R4"].getD k "")

/-! ## Claims about the orchestrator -/

/-- C1: with a client stub whose generate returns "R1", "R2", "R3", "R4"
in call order, `model_a="A"`, `model_b="B"`, `prompt="hi"`, `turns=4`, the
returned transcript is exactly
`[("A","R1"), ("B","R2"), ("A","R3"), ("B","R4")]`. -/
theorem c1_fixed_stub_transcript :
    have_conversation stubFixed "A" "B" "hi" 4 none none =
      .ok [("A", "R1"), ("B", "R2"), ("A", "R3"), ("B", "R4")] := rfl

/-- C6: requesting `stream=true` on the hosted chat-completion variant
fails with the Unsupported-Feature (`NotImplementedError`) error and
issues no network request at all, for every transport, model, prompt and
set of extra keyword arguments. -/
theorem c6_stream_unsupported (transport : ChatRequest → Except ε (Option String))
    (model prompt : String) (options : List (String × String)) :
    OpenAIClient.generate transport model prompt true options =
      ([], .error (.notImplemented "Streaming responses are not supported")) := rfl

/-- C9: with `turns=0` the client is never invoked (the list of calls made
is empty) and the returned transcript is the empty list, for every client
and every other argument. -/
theorem c9_zero_turns (client : Client ε) (model_a model_b prompt : String)
    (system_a system_b : Option String) :
    have_conversation client model_a model_b prompt 0 system_a system_b = .ok [] ∧
    (conversationRun client model_a model_b prompt 0 system_a system_b).1.calls = [] :=
  ⟨rfl, rfl⟩

/-- Inverting a successful `have_conversation`: the loop finished without a
client error and the returned transcript is the final state's history. -/
theorem have_conversation_eq_ok {client : Client ε} {model_a model_b prompt : String}
    {turns : Int} {system_a system_b : Option String} {t : List (String × String)}
    (h : have_conversation client model_a model_b prompt turns system_a system_b = .ok t) :
    (conversationRun client model_a model_b prompt turns system_a system_b).2 = none ∧
    (conversationRun client model_a model_b prompt turns system_a system_b).1.history = t := by
  unfold have_conversation at h
  rcases hr : conversationRun client model_a model_b prompt turns system_a system_b with ⟨st, err⟩
  rw [hr] at h
  cases err with
  | none => simp only [Except.ok.injEq] at h; exact ⟨by simp, by simp [h]⟩
  | some e => simp at h

/-- If the loop completes without error, the transcript grows by exactly
one entry per fuel unit. -/
theorem conversationLoop_ok_length (client : Client ε) (model_a model_b : String) :
    ∀ (n : Nat) (st : ConvState),
      (conversationLoop client model_a model_b n st).2 = none →
      (conversationLoop client model_a model_b n st).1.history.length =
        st.history.length + n := by
  intro n
  induction n with
  | zero => intro st _; rfl
  | succ m ih =>
    intro st h
    rw [conversationLoop] at h ⊢
    cases hc : client st.calls.length st.current (currentPrompt model_a st) with
    | error e => rw [hc] at h; simp at h
    | ok response =>
      rw [hc] at h
      have := ih (stepState model_a model_b response st) (by simpa using h)
      simpa [stepState, Nat.add_assoc, Nat.add_comm 1 m] using this

/-- A successful run yields a transcript of exactly `turns.toNat` entries. -/
theorem conversationRun_ok_length {client : Client ε} {model_a model_b prompt : String}
    {turns : Int} {system_a system_b : Option String}
    (h : (conversationRun client model_a model_b prompt turns system_a system_b).2 = none) :
    (conversationRun client model_a model_b prompt turns system_a system_b).1.history.length =
      turns.toNat := by
  unfold conversationRun at h ⊢
  simpa [initState] using
    conversationLoop_ok_length client model_a model_b turns.toNat
      (initState model_a prompt system_a system_b) h

/-- C4: for every orchestration call with `turns = n ≥ 0` in which the
client succeeds on every call (i.e. the call returns a transcript rather
than raising), the returned transcript has exactly `n` entries, for every
client and hence regardless of the response texts. -/
theorem c4_transcript_length (client : Client ε) (model_a model_b prompt : String)
    (turns : Int) (system_a system_b : Option String) (t : List (String × String))
    (hn : 0 ≤ turns)
    (h : have_conversation client model_a model_b prompt turns system_a system_b = .ok t) :
    (t.length : Int) = turns := by
  obtain ⟨hok, hist⟩ := have_conversation_eq_ok h
  have hl := conversationRun_ok_length hok
  rw [hist] at hl
  omega

/-- Witness for C4 at the fixed stub: turns = 4 gives 4 entries. -/
theorem c4_transcript_length_witness :
    (([("A", "R1"), ("B", "R2"), ("A", "R3"), ("B", "R4")] :
        List (String × String)).length : Int) = 4 :=
  c4_transcript_length stubFixed "A" "B" "hi" 4 none none _ (by decide) rfl

/-- C10: a negative `turns` value behaves exactly like `turns = 0` at the
public interface: `range(turns)` performs zero iterations, so the call
returns the empty transcript and never invokes the client. -/
theorem c10_negative_turns (client : Client ε) (model_a model_b prompt : String)
    (turns : Int) (system_a system_b : Option String) (h : turns < 0) :
    have_conversation client model_a model_b prompt turns system_a system_b = .ok [] ∧
    (conversationRun client model_a model_b prompt turns system_a system_b).1.calls = [] := by
  have ht : turns.toNat = 0 := by omega
  unfold have_conversation conversationRun
  rw [ht]
  simp [conversationLoop, initState]

/-- Witness for C10 at `turns = -3`. -/
theorem c10_negative_turns_witness :
    have_conversation stubFixed "A" "B" "hi" (-3) none none = .ok [] ∧
    (conversationRun stubFixed "A" "B" "hi" (-3) none none).1.calls = [] :=
  c10_negative_turns stubFixed "A" "B" "hi" (-3) none none (by decide)

/-- Loop invariant for speaker alternation: if every transcript entry so
far has the speaker dictated by the parity of its index, and the current
speaker matches the parity of the transcript length, both remain true of
the final state (whether or not a client error aborts the loop). -/
theorem conversationLoop_speakers (client : Client ε) (model_a model_b : String) :
    ∀ (n : Nat) (st : ConvState),
      (∀ i (hi : i < st.history.length),
        (st.history[i]).1 = if i % 2 = 0 then model_a else model_b) →
      st.current = (if st.history.length % 2 = 0 then model_a else model_b) →
      ∀ i (hi : i < (conversationLoop client model_a model_b n st).1.history.length),
        ((conversationLoop client model_a model_b n st).1.history[i]).1 =
          if i % 2 = 0 then model_a else model_b := by
  intro n
  induction n with
  | zero => intro st hh _ i hi; exact hh i hi
  | succ m ih =>
    intro st hh hcur
    rw [conversationLoop]
    cases hc : client st.calls.length st.current (currentPrompt model_a st) with
    | error e => intro i hi; exact hh i hi
    | ok response =>
      refine ih (stepState model_a model_b response st) ?_ ?_
      · intro i hi
        simp only [stepState] at hi ⊢
        rcases Nat.lt_or_ge i st.history.length with hlt | hge
        · rw [List.getElem_append_left hlt]
          exact hh i hlt
        · have hlen : i = st.history.length := by
            simp only [List.length_append, List.length_singleton] at hi
            omega
          subst hlen
          rw [List.getElem_concat_length st.history (st.current, response) _ rfl]
          simpa using hcur
      · simp only [stepState, List.length_append, List.length_singleton]
        by_cases h2 : st.history.length % 2 = 0
        · rw [hcur, if_pos h2, if_pos rfl]
          have h1 : ¬ (st.history.length + 1) % 2 = 0 := by omega
          rw [if_neg h1]
        · rw [hcur, if_neg h2]
          have h1 : (st.history.length + 1) % 2 = 0 := by omega
          rw [if_pos h1]
          by_cases hab : model_b = model_a
          · rw [if_pos hab, hab]
          · rw [if_neg hab]

/-- C3: the speakers of the returned transcript alternate strictly
starting with Model A: entry `i` is spoken by `model_a` when `i` is even
and by `model_b` when `i` is odd (this also covers `model_a = model_b`,
where both branches coincide). -/
theorem c3_alternating_speakers (client : Client ε) (model_a model_b prompt : String)
    (turns : Int) (system_a system_b : Option String) (t : List (String × String))
    (h : have_conversation client model_a model_b prompt turns system_a system_b = .ok t) :
    ∀ i (hi : i < t.length), (t[i]).1 = if i % 2 = 0 then model_a else model_b := by
  obtain ⟨-, hist⟩ := have_conversation_eq_ok h
  intro i hi
  subst hist
  refine conversationLoop_speakers client model_a model_b turns.toNat
    (initState model_a prompt system_a system_b) ?_ ?_ i hi
  · intro j hj; simp [initState] at hj
  · simp [initState]

/-- Witness for C3 at the fixed stub, index 1: the second entry is spoken
by Model B. -/
theorem c3_alternating_speakers_witness :
    (([("A", "R1"), ("B", "R2"), ("A", "R3"), ("B", "R4")] :
        List (String × String)).get ⟨1, by decide⟩).1 =
      if 1 % 2 = 0 then "A" else "B" :=
  c3_alternating_speakers stubFixed "A" "B" "hi" 4 none none _ rfl 1 (by decide)

/-- Characterisation of a line allowed in Model A's context: it is the
optional system line, the seed prompt tagged as a user line, or a line
attributed to the *other* speaker — produced by `model_b` at a turn
recorded in the transcript, at a moment where `model_b` differed from
`model_a` (lines are routed to `historyA` only when the current speaker is
not `model_a`).  In particular `historyA` never contains a line that
Model A itself produced. -/
def ctxInvA (model_a model_b prompt : String) (system_a : Option String)
    (history : List (String × String)) (l : String) : Prop :=
  l ∈ sysLines system_a ∨ l = "user: " ++ prompt ∨
    ∃ r, l = model_b ++ ": " ++ r ∧ (model_b, r) ∈ history ∧ model_b ≠ model_a

/-- Characterisation of a line allowed in Model B's context: the optional
system line, the seed user line, or a line produced by the slot-A speaker
`model_a` at a turn recorded in the transcript (lines are routed to
`historyB` exactly when the current speaker is `model_a`, i.e. the other
participant from B's point of view). -/
def ctxInvB (model_a prompt : String) (system_b : Option String)
    (history : List (String × String)) (l : String) : Prop :=
  l ∈ sysLines system_b ∨ l = "user: " ++ prompt ∨
    ∃ r, l = model_a ++ ": " ++ r ∧ (model_a, r) ∈ history

/-- The predicate `ctxInvA` is monotone in the transcript. -/
theorem ctxInvA_mono {model_a model_b prompt : String} {system_a : Option String}
    {h1 h2 : List (String × String)} (hsub : ∀ p, p ∈ h1 → p ∈ h2) {l : String}
    (h : ctxInvA model_a model_b prompt system_a h1 l) :
    ctxInvA model_a model_b prompt system_a h2 l := by
  rcases h with h | h | ⟨r, hr1, hr2, hr3⟩
  · exact Or.inl h
  · exact Or.inr (Or.inl h)
  · exact Or.inr (Or.inr ⟨r, hr1, hsub _ hr2, hr3⟩)

/-- The predicate `ctxInvB` is monotone in the transcript. -/
theorem ctxInvB_mono {model_a prompt : String} {system_b : Option String}
    {h1 h2 : List (String × String)} (hsub : ∀ p, p ∈ h1 → p ∈ h2) {l : String}
    (h : ctxInvB model_a prompt system_b h1 l) :
    ctxInvB model_a prompt system_b h2 l := by
  rcases h with h | h | ⟨r, hr1, hr2⟩
  · exact Or.inl h
  · exact Or.inr (Or.inl h)
  · exact Or.inr (Or.inr ⟨r, hr1, hsub _ hr2⟩)

/-- Loop invariant for the per-speaker contexts: if the current speaker is
one of the two participants and every existing context line satisfies its
characterisation, the same holds of the final state. -/
theorem conversationLoop_context (client : Client ε) (model_a model_b prompt : String)
    (system_a system_b : Option String) :
    ∀ (n : Nat) (st : ConvState),
      (st.current = model_a ∨ st.current = model_b) →
      (∀ l ∈ st.historyA, ctxInvA model_a model_b prompt system_a st.history l) →
      (∀ l ∈ st.historyB, ctxInvB model_a prompt system_b st.history l) →
      (∀ l ∈ (conversationLoop client model_a model_b n st).1.historyA,
        ctxInvA model_a model_b prompt system_a
          (conversationLoop client model_a model_b n st).1.history l) ∧
      (∀ l ∈ (conversationLoop client model_a model_b n st).1.historyB,
        ctxInvB model_a prompt system_b
          (conversationLoop client model_a model_b n st).1.history l) := by
  intro n
  induction n with
  | zero => intro st _ hA hB; exact ⟨hA, hB⟩
  | succ m ih =>
    intro st hcur hA hB
    rw [conversationLoop]
    cases hc : client st.calls.length st.current (currentPrompt model_a st) with
    | error e => exact ⟨hA, hB⟩
    | ok response =>
      have hsub : ∀ p, p ∈ st.history → p ∈ (stepState model_a model_b response st).history := by
        intro p hp
        simp only [stepState, List.mem_append]
        exact Or.inl hp
      refine ih (stepState model_a model_b response st) ?_ ?_ ?_
      · by_cases hca : st.current = model_a
        · simp [stepState, hca]
        · simp [stepState, hca]
      · intro l hl
        by_cases hca : st.current = model_a
        · simp only [stepState, if_pos hca] at hl
          exact ctxInvA_mono hsub (hA l hl)
        · have hcb : st.current = model_b := hcur.resolve_left hca
          simp only [stepState, if_neg hca, List.mem_append, List.mem_singleton] at hl
          rcases hl with hold | hnew
          · exact ctxInvA_mono hsub (hA l hold)
          · refine Or.inr (Or.inr ⟨response, by rw [hnew, hcb], ?_, ?_⟩)
            · simp only [stepState, List.mem_append, List.mem_singleton]
              exact Or.inr (by rw [hcb])
            · rw [← hcb]; exact hca
      · intro l hl
        by_cases hca : st.current = model_a
        · simp only [stepState, if_pos hca, List.mem_append, List.mem_singleton] at hl
          rcases hl with hold | hnew
          · exact ctxInvB_mono hsub (hB l hold)
          · refine Or.inr (Or.inr ⟨response, by rw [hnew, hca], ?_⟩)
            simp only [stepState, List.mem_append, List.mem_singleton]
            exact Or.inr (by rw [hca])
        · simp only [stepState, if_neg hca] at hl
          exact ctxInvB_mono hsub (hB l hl)

/-- C2: for every orchestration call — any two model identifiers
(including `model_a = model_b`), any seed prompt, optional system
prompts, any turn count and any client — each generated response line is
appended only to the other speaker's context: every line of the final
`historyA` is A's optional system line, the seed user line, or a
transcript line produced by `model_b` while `model_b ≠ model_a`; every
line of the final `historyB` is B's optional system line, the seed user
line, or a transcript line produced by the slot-A participant
`model_a`. -/
theorem c2_context_invariant (client : Client ε) (model_a model_b prompt : String)
    (turns : Int) (system_a system_b : Option String) :
    (∀ l ∈ (conversationRun client model_a model_b prompt turns system_a system_b).1.historyA,
      ctxInvA model_a model_b prompt system_a
        (conversationRun client model_a model_b prompt turns system_a system_b).1.history l) ∧
    (∀ l ∈ (conversationRun client model_a model_b prompt turns system_a system_b).1.historyB,
      ctxInvB model_a prompt system_b
        (conversationRun client model_a model_b prompt turns system_a system_b).1.history l) := by
  unfold conversationRun
  refine conversationLoop_context client model_a model_b prompt system_a system_b
    turns.toNat (initState model_a prompt system_a system_b) ?_ ?_ ?_
  · exact Or.inl rfl
  · intro l hl
    simp only [initState, List.mem_append, List.mem_singleton] at hl
    rcases hl with hsys | huser
    · exact Or.inl hsys
    · exact Or.inr (Or.inl huser)
  · intro l hl
    simp only [initState, List.mem_append, List.mem_singleton] at hl
    rcases hl with hsys | huser
    · exact Or.inl hsys
    · exact Or.inr (Or.inl huser)

/-- Witness for C2 at the fixed stub: after four turns, Model A's context
contains the line "B: R2", and that line satisfies the characterisation
(produced by Model B, recorded in the transcript, B distinct from A). -/
theorem c2_context_invariant_witness :
    "B: R2" ∈ (conversationRun stubFixed "A" "B" "hi" 4 none none).1.historyA ∧
    ctxInvA "A" "B" "hi" none
      (conversationRun stubFixed "A" "B" "hi" 4 none none).1.history "B: R2" :=
  ⟨by decide,
   (c2_context_invariant stubFixed "A" "B" "hi" 4 none none).1 "B: R2" (by decide)⟩

/-- If the client succeeds on every call of index below `k`, fails with
`e` on call index `k`, and call `k` falls within the remaining fuel, the
loop stops with error `e` having made exactly `k + 1` calls in total. -/
theorem conversationLoop_error (client : Client ε) (model_a model_b : String) (k : Nat) (e : ε)
    (hok : ∀ j m p, j < k → ∃ s, client j m p = .ok s)
    (herr : ∀ m p, client k m p = .error e) :
    ∀ (n : Nat) (st : ConvState), st.calls.length ≤ k → k < st.calls.length + n →
      (conversationLoop client model_a model_b n st).2 = some e ∧
      (conversationLoop client model_a model_b n st).1.calls.length = k + 1 := by
  intro n
  induction n with
  | zero => intro st h1 h2; omega
  | succ m ih =>
    intro st h1 h2
    rw [conversationLoop]
    rcases Nat.lt_or_ge st.calls.length k with hlt | hge
    · obtain ⟨s, hs⟩ := hok st.calls.length st.current (currentPrompt model_a st) hlt
      rw [hs]
      refine ih (stepState model_a model_b s st) ?_ ?_
      all_goals simp only [stepState, List.length_append, List.length_singleton]
      · omega
      · omega
    · have hke : st.calls.length = k := Nat.le_antisymm h1 hge
      have herr2 : client st.calls.length st.current (currentPrompt model_a st) = .error e := by
        rw [hke]; exact herr st.current (currentPrompt model_a st)
      rw [herr2]
      refine ⟨rfl, ?_⟩
      simp only [List.length_append, List.length_singleton]
      omega

/-- C5: if the client raises error `e` on its call of index `k`
(0-indexed, so the `(k+1)`-st call in the claim's 1-based counting) after
succeeding on all earlier calls, and that call is reached
(`k < turns`), then the orchestration call raises exactly `e` — the
already-recorded turns are not returned — and the client is invoked
exactly `k + 1` times, i.e. never again after the failing call. -/
theorem c5_error_propagation (client : Client ε) (model_a model_b prompt : String)
    (turns : Int) (system_a system_b : Option String) (k : Nat) (e : ε)
    (hok : ∀ j m p, j < k → ∃ s, client j m p = .ok s)
    (herr : ∀ m p, client k m p = .error e)
    (hk : (k : Int) < turns) :
    have_conversation client model_a model_b prompt turns system_a system_b = .error e ∧
    (conversationRun client model_a model_b prompt turns system_a system_b).1.calls.length =
      k + 1 := by
  have main := conversationLoop_error client model_a model_b k e hok herr turns.toNat
    (initState model_a prompt system_a system_b)
    (by simp [initState]) (by simp [initState]; omega)
  unfold have_conversation conversationRun
  unfold conversationRun at main
  rcases hr : conversationLoop client model_a model_b turns.toNat
      (initState model_a prompt system_a system_b) with ⟨st, err⟩
  rw [hr] at main
  obtain ⟨m1, m2⟩ := main
  simp only at m1 m2
  subst m1
  exact ⟨rfl, m2⟩

/-- A stub client that succeeds with "R" on its first call and raises the
transport error "boom" on its second call (call index 1). -/
def stubFailSecond : Client String := fun k _ _ =>
  if k = 1 then .error "boom" else .ok "R"

/-- Witness for C5: with the stub that fails on the second call and
`turns = 4`, the orchestrator raises "boom" and makes exactly two client
calls — it does not invoke the client a third time. -/
theorem c5_error_propagation_witness :
    have_conversation stubFailSecond "A" "B" "hi" 4 none none = .error "boom" ∧
    (conversationRun stubFailSecond "A" "B" "hi" 4 none none).1.calls.length = 1 + 1 :=
  c5_error_propagation stubFailSecond "A" "B" "hi" 4 none none 1 "boom"
    (by intro j m p hj; exact ⟨"R", by simp [stubFailSecond]; omega⟩)
    (by intro m p; simp [stubFailSecond])
    (by decide)

/-- C7: whenever the local-generation client's HTTP call succeeds with
JSON body `data`, the call returns exactly the `response` field of the
body, defaulting to the empty string when the field is absent
(`data.get("response", "")` — the lenient default, not an error). -/
theorem c7_response_field (post : OllamaPayload → Except ε (List (String × String)))
    (model prompt : String) (stream : Bool) (options : Option (List (String × String)))
    (data : List (String × String))
    (h : post (ollamaPayload model prompt stream options) = .ok data) :
    (OllamaClient.generate post model prompt stream options).2 =
      .ok ((data.lookup "response").getD "") := by
  unfold OllamaClient.generate
  rw [h]

/-- Witness for C7: a body `{"response": "ok"}` yields exactly "ok", and a
body without a `response` field yields "". -/
theorem c7_response_field_witness :
    (OllamaClient.generate
        (fun _ => (.ok [("response", "ok")] : Except Unit (List (String × String))))
        "m" "hi" false none).2 = .ok "ok" ∧
    (OllamaClient.generate
        (fun _ => (.ok [("done", "true")] : Except Unit (List (String × String))))
        "m" "hi" false none).2 = .ok "" :=
  ⟨c7_response_field
      (fun _ => (.ok [("response", "ok")] : Except Unit (List (String × String))))
      "m" "hi" false none [("response", "ok")] rfl,
   c7_response_field
      (fun _ => (.ok [("done", "true")] : Except Unit (List (String × String))))
      "m" "hi" false none [("done", "true")] rfl⟩

/-- C8 counterexample: the hosted chat-completion variant does *not* pass
the options map through to the provider request.  Its `generate` accepts
extra keyword arguments but discards them (`**_` in the source): with the
non-empty options map `[("temperature", "0.7")]` it issues exactly the
same request as with no options at all, so the options are not passed
through verbatim on that variant. -/
theorem c8_counterexample :
    (OpenAIClient.generate (fun _ => (.ok (some "r") : Except Unit (Option String)))
        "m" "p" false [("temperature", "0.7")]).1 =
    (OpenAIClient.generate (fun _ => (.ok (some "r") : Except Unit (Option String)))
        "m" "p" false []).1 := rfl

/-- C8 (amended): only the local-generation variant passes the options map
through verbatim: it issues exactly one request, whose body carries the
model identifier, the prompt and the stream flag unchanged, and carries
the options map exactly when that map is present and non-empty.  The
hosted chat-completion variant ignores the options map entirely: its
request consists of only the model identifier and the single user
message, whatever extra keyword arguments are supplied. -/
theorem c8_options_passthrough (post : OllamaPayload → Except ε (List (String × String)))
    (transport : ChatRequest → Except ε2 (Option String))
    (model prompt : String) (stream : Bool) (options : Option (List (String × String)))
    (opts : List (String × String)) :
    (∃ p, (OllamaClient.generate post model prompt stream options).1 = [p] ∧
      p.model = model ∧ p.prompt = prompt ∧ p.stream = stream ∧
      (∀ o, p.options = some o ↔ options = some o ∧ o ≠ [])) ∧
    (OpenAIClient.generate transport model prompt false opts).1 =
      [{ model := model, messages := [{ role := "user", content := prompt }] }] := by
  constructor
  · refine ⟨ollamaPayload model prompt stream options, ?_, rfl, rfl, rfl, ?_⟩
    · unfold OllamaClient.generate
      cases post (ollamaPayload model prompt stream options) <;> rfl
    · intro o
      unfold ollamaPayload
      cases options with
      | none => simp
      | some o2 =>
        by_cases h : o2 = []
        · subst h; simp
        · simp only [if_neg h, Option.some.injEq]
          constructor
          · intro he; exact ⟨he, he ▸ h⟩
          · intro he; exact he.1
  · cases htr : transport { model := model, messages := [{ role := "user", content := prompt }] } with
    | error e => simp [OpenAIClient.generate, htr]
    | ok c => simp [OpenAIClient.generate, htr]

/-- Witness for C8 (amended) at concrete stubs and the non-empty options
map `[("temperature", "0.7")]`. -/
theorem c8_options_passthrough_witness :
    (∃ p, (OllamaClient.generate (fun _ => (.ok [] : Except Unit (List (String × String))))
        "m" "p" false (some [("temperature", "0.7")])).1 = [p] ∧
      p.model = "m" ∧ p.prompt = "p" ∧ p.stream = false ∧
      (∀ o, p.options = some o ↔ some [("temperature", "0.7")] = some o ∧ o ≠ [])) ∧
    (OpenAIClient.generate (fun _ => (.ok (some "r") : Except Unit (Option String)))
        "m" "p" false [("temperature", "0.7")]).1 =
      [{ model := "m", messages := [{ role := "user", content := "p" }] }] :=
  c8_options_passthrough (fun _ => (.ok [] : Except Unit (List (String × String))))
    (fun _ => (.ok (some "r") : Except Unit (Option String)))
    "m" "p" false (some [("temperature", "0.7")]) [("temperature", "0.7")]

end LLMDuet
